import Mathlib

/-!
Verification of the EasyTier UDP tunnel transport
(`easytier-core/src/tunnels/udp_tunnel.rs`).

The development shallowly embeds the data model and the control paths of the
UDP tunnel: the `UdpPacket` envelope and its checked codec, the per-connection
payload extraction (`try_get_data_payload`), the listener's receive-loop step
(`listen` / `handle_connect` / `try_forward_packet`), the connector's SACK
wait (`wait_sack` / `wait_sack_loop`), and the multi-bind connect fan-out
(`connect_with_custom_bind`).  Asynchronous effects (socket sends, ring
pushes, task spawns) are made explicit: each step function returns the list
of externally visible events it performs together with its state update, and
fallible environment interactions (socket send results, ring sink results)
are inputs to the step.
-/

namespace UdpTunnel

/-- A wire byte. -/
abbrev Byte := Fin 256

/-- The MTU constant: `pub const UDP_DATA_MTU: usize = 2500;`. -/
def UDP_DATA_MTU : Nat := 2500

/-- The payload variants of the on-wire envelope (`enum UdpPacketPayload`). -/
inductive UdpPacketPayload where
  | Syn : UdpPacketPayload
  | Sack : UdpPacketPayload
  | HolePunch (data : List Byte) : UdpPacketPayload
  | Data (data : List Byte) : UdpPacketPayload
deriving DecidableEq, Repr

/-- The on-wire envelope (`struct UdpPacket { conn_id: u32, payload: UdpPacketPayload }`).
`conn_id` is a `u32`; well-formed values satisfy `conn_id < 2^32`. -/
structure UdpPacket where
  conn_id : Nat
  payload : UdpPacketPayload
deriving DecidableEq, Repr

/-- Little-endian 4-byte encoding of a `u32` value. -/
def u32le (n : Nat) : List Byte :=
  [⟨n % 256, by omega⟩, ⟨n / 256 % 256, by omega⟩,
   ⟨n / 65536 % 256, by omega⟩, ⟨n / 16777216 % 256, by omega⟩]

/-- Little-endian read of a `u32` from 4 bytes. -/
def fromU32le (a b c d : Byte) : Nat :=
  a.val + 256 * b.val + 65536 * c.val + 16777216 * d.val

theorem fromU32le_u32le (n : Nat) (h : n < 4294967296) :
    fromU32le ⟨n % 256, by omega⟩ ⟨n / 256 % 256, by omega⟩
      ⟨n / 65536 % 256, by omega⟩ ⟨n / 16777216 % 256, by omega⟩ = n := by
  simp only [fromU32le]
  omega

/-- Modelled from the spec: the byte layout produced by
`rkyv_util::encode_to_bytes` (crate `common::rkyv_util`, not under `src/`).
The spec fixes only that the envelope is self-describing, checked, and
bounded by the 2500-byte MTU; the exact layout is implementation-defined, so
we fix one: 4-byte little-endian conn id, a one-byte variant tag, and for the
byte-carrying variants a 4-byte little-endian length followed by the bytes. -/
def rawEncode (p : UdpPacket) : List Byte :=
  u32le p.conn_id ++
    match p.payload with
    | .Syn => [(0 : Byte)]
    | .Sack => [(1 : Byte)]
    | .HolePunch d => (2 : Byte) :: (u32le d.length ++ d)
    | .Data d => (3 : Byte) :: (u32le d.length ++ d)

/-- Modelled from the spec: `rkyv_util::encode_to_bytes::<_, UDP_DATA_MTU>`
(not under `src/`) serializes into a scratch buffer of capacity
`UDP_DATA_MTU`; encoding an envelope whose encoded size exceeds the MTU
fails before any transmission. -/
def encode_to_bytes (p : UdpPacket) : Option (List Byte) :=
  let b := rawEncode p
  if b.length ≤ UDP_DATA_MTU then some b else none

/-- Modelled from the spec: checked decoding
(`rkyv_util::decode_from_bytes_checked`, not under `src/`) of the tag and
payload given the variant tag byte and the remaining bytes.  Structural
validity, variant tag and inner length are verified; malformed inputs fail. -/
def decodePayload (t : Byte) (rest : List Byte) : Option UdpPacketPayload :=
  if t.val = 0 then
    if rest.isEmpty then some .Syn else none
  else if t.val = 1 then
    if rest.isEmpty then some .Sack else none
  else if t.val = 2 then
    match rest with
    | l0 :: l1 :: l2 :: l3 :: data =>
      if data.length = fromU32le l0 l1 l2 l3 then some (.HolePunch data) else none
    | _ => none
  else if t.val = 3 then
    match rest with
    | l0 :: l1 :: l2 :: l3 :: data =>
      if data.length = fromU32le l0 l1 l2 l3 then some (.Data data) else none
    | _ => none
  else none

/-- Modelled from the spec: checked decoding of a whole buffer
(`rkyv_util::decode_from_bytes_checked::<UdpPacket>`, not under `src/`).
Either the whole buffer is a well-formed envelope or decoding fails; no
partially-decoded value escapes. -/
def decode (b : List Byte) : Option UdpPacket :=
  match b with
  | b0 :: b1 :: b2 :: b3 :: t :: rest =>
    (decodePayload t rest).map (fun pl => ⟨fromU32le b0 b1 b2 b3, pl⟩)
  | _ => none

theorem decode_rawEncode (p : UdpPacket) (hc : p.conn_id < 4294967296)
    (hl : ∀ d, (p.payload = .HolePunch d ∨ p.payload = .Data d) →
      d.length < 4294967296) :
    decode (rawEncode p) = some p := by
  obtain ⟨cid, pl⟩ := p
  cases pl with
  | Syn =>
    simp only [rawEncode, u32le, List.cons_append, List.nil_append, decode,
      decodePayload, List.isEmpty_nil, if_true, Fin.isValue]
    simp [fromU32le_u32le cid hc]
  | Sack =>
    simp only [rawEncode, u32le, List.cons_append, List.nil_append, decode,
      decodePayload, List.isEmpty_nil, Fin.isValue]
    norm_num [fromU32le_u32le cid hc]
  | HolePunch d =>
    have hd : d.length < 4294967296 := hl d (by simp)
    simp only [rawEncode, u32le, List.cons_append, List.nil_append, decode,
      decodePayload, Fin.isValue]
    norm_num [fromU32le_u32le cid hc, fromU32le_u32le d.length hd]
  | Data d =>
    have hd : d.length < 4294967296 := hl d (by simp)
    simp only [rawEncode, u32le, List.cons_append, List.nil_append, decode,
      decodePayload, Fin.isValue]
    norm_num [fromU32le_u32le cid hc, fromU32le_u32le d.length hd]
    refine ⟨by decide, by decide, ?_⟩
    rw [if_neg (by decide), if_pos (by decide)]

theorem rawEncode_length (p : UdpPacket) :
    (rawEncode p).length =
      match p.payload with
      | .Syn => 5
      | .Sack => 5
      | .HolePunch d => 9 + d.length
      | .Data d => 9 + d.length := by
  obtain ⟨c, pl⟩ := p
  cases pl <;> simp [rawEncode, u32le] <;> omega

theorem decodePayload_sack_eq {t : Byte} {rest : List Byte}
    (h : decodePayload t rest = some .Sack) : rest = [] := by
  unfold decodePayload at h
  repeat' split at h
  all_goals simp_all

theorem decodePayload_data_eq {t : Byte} {rest d : List Byte}
    (h : decodePayload t rest = some (.Data d)) :
    ∃ l0 l1 l2 l3, rest = l0 :: l1 :: l2 :: l3 :: d := by
  unfold decodePayload at h
  repeat' split at h
  all_goals simp_all

/-- A buffer decoding to a `Sack` envelope is exactly 5 bytes long. -/
theorem decode_sack_length {b : List Byte} {c : Nat}
    (h : decode b = some ⟨c, .Sack⟩) : b.length = 5 := by
  unfold decode at h
  split at h
  case h_1 b0 b1 b2 b3 t rest =>
    rw [Option.map_eq_some'] at h
    obtain ⟨pl, hpl, heq⟩ := h
    injection heq with h1 h2
    subst h2
    have := decodePayload_sack_eq hpl
    subst this
    simp
  case h_2 => simp at h

/-- A buffer decoding to a `Data d` envelope has `d` as a suffix (the inner
data bytes are a sub-slice of the received buffer) and total length
`9 + d.length`. -/
theorem decode_data_shape {b : List Byte} {c : Nat} {d : List Byte}
    (h : decode b = some ⟨c, .Data d⟩) : b.length = 9 + d.length ∧ d <:+ b := by
  unfold decode at h
  split at h
  case h_1 b0 b1 b2 b3 t rest =>
    rw [Option.map_eq_some'] at h
    obtain ⟨pl, hpl, heq⟩ := h
    injection heq with h1 h2
    subst h2
    obtain ⟨l0, l1, l2, l3, hrest⟩ := decodePayload_data_eq hpl
    subst hrest
    constructor
    · simp; omega
    · exact ⟨[b0, b1, b2, b3, t, l0, l1, l2, l3], rfl⟩
  case h_2 => simp at h

/-- The function `try_get_data_payload(buf, conn_id)` from `udp_tunnel.rs` lines 79-103:
checked-decode the buffer; drop it unless the conn id matches and the payload
variant is `Data`; otherwise return the inner data bytes, which the code
takes as a sub-slice of the receive buffer (`advance`/`truncate`). -/
def try_get_data_payload (buf : List Byte) (conn_id : Nat) : Option (List Byte) :=
  match decode buf with
  | none => none
  | some p =>
    if p.conn_id ≠ conn_id then none
    else
      match p.payload with
      | .Data d => some d
      | _ => none

theorem encode_to_bytes_eq (p : UdpPacket) :
    encode_to_bytes p =
      if (rawEncode p).length ≤ UDP_DATA_MTU then some (rawEncode p) else none := rfl

/-- C5: For every well-formed `UdpPacket` envelope value (u32 conn id, any of
the four payload variants), decoding the encoding yields the original value. -/
theorem envelope_roundtrip (p : UdpPacket) (hc : p.conn_id < 4294967296) :
    ∀ b, encode_to_bytes p = some b → decode b = some p := by
  intro b hb
  rw [encode_to_bytes_eq] at hb
  split at hb
  case isTrue hle =>
    injection hb with hb
    subst hb
    apply decode_rawEncode p hc
    intro d hd
    have hlen := rawEncode_length p
    rcases hd with hd | hd <;> rw [hd] at hlen <;>
      simp only at hlen <;> unfold UDP_DATA_MTU at hle <;> omega
  case isFalse => exact absurd hb (by simp)

theorem envelope_roundtrip_witness :
    encode_to_bytes ⟨7, .Data [1, 2, 3]⟩ = some (rawEncode ⟨7, .Data [1, 2, 3]⟩)
    ∧ decode (rawEncode ⟨7, .Data [1, 2, 3]⟩) = some ⟨7, .Data [1, 2, 3]⟩ :=
  ⟨by decide, envelope_roundtrip ⟨7, .Data [1, 2, 3]⟩ (by decide) _ (by decide)⟩

/-- The data-frame bytes put on the wire by the per-connection sink built in
`get_tunnel_from_socket` (lines 130-141): the outgoing buffer is wrapped as a
`Data` envelope with the bound conn id and encoded against the MTU. -/
def sink_send (conn_id : Nat) (v : List Byte) : Option (List Byte) :=
  encode_to_bytes ⟨conn_id, .Data v⟩

/-- The SACK bytes sent by `handle_connect` (lines 223-225). -/
def sack_bytes (conn_id : Nat) : Option (List Byte) :=
  encode_to_bytes ⟨conn_id, .Sack⟩

/-- The SYN bytes sent by `try_connect_with_socket` (lines 469-472). -/
def syn_bytes (conn_id : Nat) : Option (List Byte) :=
  encode_to_bytes ⟨conn_id, .Syn⟩

/-- C6: Encoding an envelope whose encoded size exceeds the 2500-byte MTU
fails before any transmission, and every byte string actually produced for
transmission — by the per-connection data sink, the listener's SACK send or
the connector's SYN send — is at most `UDP_DATA_MTU` bytes long. -/
theorem bounded_encoding :
    (∀ p, UDP_DATA_MTU < (rawEncode p).length → encode_to_bytes p = none)
    ∧ (∀ p b, encode_to_bytes p = some b → b.length ≤ UDP_DATA_MTU)
    ∧ (∀ cid v b, sink_send cid v = some b → b.length ≤ UDP_DATA_MTU)
    ∧ (∀ cid b, sack_bytes cid = some b → b.length ≤ UDP_DATA_MTU)
    ∧ (∀ cid b, syn_bytes cid = some b → b.length ≤ UDP_DATA_MTU) := by
  have henc : ∀ p b, encode_to_bytes p = some b → b.length ≤ UDP_DATA_MTU := by
    intro p b hb
    rw [encode_to_bytes_eq] at hb
    split at hb
    · injection hb with hb
      subst hb
      assumption
    · exact absurd hb (by simp)
  refine ⟨?_, henc, ?_, ?_, ?_⟩
  · intro p hp
    rw [encode_to_bytes_eq, if_neg (by omega)]
  · intro cid v b hb
    exact henc _ _ hb
  · intro cid b hb
    exact henc _ _ hb
  · intro cid b hb
    exact henc _ _ hb

theorem bounded_encoding_witness :
    encode_to_bytes ⟨0, .Data (List.replicate 2492 0)⟩ = none
    ∧ (sack_bytes 5).getD [] = rawEncode ⟨5, .Sack⟩
    ∧ (rawEncode ⟨5, .Sack⟩).length ≤ UDP_DATA_MTU := by
  refine ⟨bounded_encoding.1 ⟨0, .Data (List.replicate 2492 0)⟩ ?_, by decide,
    bounded_encoding.2.2.2.1 5 (rawEncode ⟨5, .Sack⟩) (by decide)⟩
  rw [rawEncode_length]
  show UDP_DATA_MTU < 9 + (List.replicate 2492 (0 : Byte)).length
  rw [List.length_replicate]
  norm_num [UDP_DATA_MTU]

/-- When payload extraction yields bytes, the buffer decoded to a `Data`
envelope with the bound conn id carrying exactly those bytes. -/
theorem try_get_data_payload_eq_some {buf : List Byte} {cid : Nat} {d : List Byte}
    (h : try_get_data_payload buf cid = some d) :
    decode buf = some ⟨cid, .Data d⟩ := by
  unfold try_get_data_payload at h
  split at h
  · exact absurd h (by simp)
  case h_2 p hp =>
    split at h
    · exact absurd h (by simp)
    case isFalse hne =>
      rw [not_not] at hne
      obtain ⟨c, pl⟩ := p
      simp only at hne
      subst hne
      cases pl with
      | Data d2 =>
        injection h with h
        subst h
        exact hp
      | Syn => exact absurd h (by simp)
      | Sack => exact absurd h (by simp)
      | HolePunch d2 => exact absurd h (by simp)

/-- C7: For a per-connection tunnel stream bound to `conn_id`, a datagram is
dropped (the stream yields nothing) when its envelope fails to decode, its
conn id differs from the bound one, or its payload variant is not `Data`;
otherwise the stream yields exactly the inner `Data` bytes, which are a
sub-slice (here: a contiguous infix, in fact a suffix) of the received
buffer. -/
theorem data_payload_extraction (buf : List Byte) (cid : Nat) :
    (∀ d, try_get_data_payload buf cid = some d →
      decode buf = some ⟨cid, .Data d⟩ ∧ d <:+: buf)
    ∧ (decode buf = none → try_get_data_payload buf cid = none)
    ∧ (∀ p, decode buf = some p → p.conn_id ≠ cid →
      try_get_data_payload buf cid = none)
    ∧ (∀ p, decode buf = some p → (∀ d, p.payload ≠ .Data d) →
      try_get_data_payload buf cid = none) := by
  refine ⟨?_, ?_, ?_, ?_⟩
  · intro d hd
    have h := try_get_data_payload_eq_some hd
    exact ⟨h, (decode_data_shape h).2.isInfix⟩
  · intro h
    unfold try_get_data_payload
    rw [h]
  · intro p hp hne
    cases hres : try_get_data_payload buf cid with
    | none => rfl
    | some d =>
      have h := try_get_data_payload_eq_some hres
      rw [hp] at h
      injection h with h
      rw [h] at hne
      simp at hne
  · intro p hp hnd
    cases hres : try_get_data_payload buf cid with
    | none => rfl
    | some d =>
      have h := try_get_data_payload_eq_some hres
      rw [hp] at h
      injection h with h
      exact absurd (by rw [h]) (hnd d)

theorem data_payload_extraction_witness :
    try_get_data_payload (rawEncode ⟨7, .Data [9, 8]⟩) 7 = some [9, 8]
    ∧ decode (rawEncode ⟨7, .Data [9, 8]⟩) = some ⟨7, .Data [9, 8]⟩
    ∧ [9, 8] <:+: rawEncode ⟨7, .Data [9, 8]⟩ := by
  have h := (data_payload_extraction (rawEncode ⟨7, .Data [9, 8]⟩) 7).1 [9, 8] (by decide)
  exact ⟨by decide, h.1, h.2⟩

/-- Remote socket addresses, abstracted as naturals. -/
abbrev Addr := Nat

/-- The payload-relevant part of the `StreamSinkPair` stored in `sock_map`:
its bound conn id, plus an identifier for the ring-tunnel pair it bridges to
(fresh per `handle_connect` call). -/
structure Entry where
  conn_id : Nat
  ring : Nat
deriving DecidableEq, Repr

/-- The `DashMap<SocketAddr, ArcStreamSinkPair>` socket map, embedded as an
association list holding at most one binding per address. -/
abbrev SockMap := List (Addr × Entry)

def mapLookup (m : SockMap) (k : Addr) : Option Entry :=
  (m.find? (fun q => q.1 == k)).map (fun q => q.2)

/-- Insertion (`DashMap::insert`) replaces any existing binding for the key. -/
def mapInsert (m : SockMap) (k : Addr) (v : Entry) : SockMap :=
  (k, v) :: m.filter (fun q => q.1 != k)

/-- Removal (`DashMap::remove`) deletes the binding for the key, if any. -/
def mapRemove (m : SockMap) (k : Addr) : SockMap :=
  m.filter (fun q => q.1 != k)

theorem mapLookup_insert (m : SockMap) (k : Addr) (v : Entry) :
    mapLookup (mapInsert m k v) k = some v := by
  simp [mapLookup, mapInsert, List.find?]

theorem mapLookup_remove (m : SockMap) (k : Addr) :
    mapLookup (mapRemove m k) k = none := by
  simp only [mapLookup, mapRemove, Option.map_eq_none']
  rw [List.find?_eq_none]
  intro q hq
  have := List.of_mem_filter hq
  simpa using this

/-- The error type (`super::TunnelError`), restricted to the constructors the
UDP tunnel paths produce. -/
inductive TunnelError where
  | CommonError (msg : String)
  | ConnectError (msg : String)
  | Timeout
deriving DecidableEq, Repr

/-- One inbound UDP datagram: source address and the full wire bytes. -/
structure Datagram where
  src : Addr
  content : List Byte
deriving DecidableEq, Repr

/-- Externally visible actions of the listener paths. -/
inductive Event where
  | SendSack (addr : Addr) (conn_id : Nat)
  | InsertMap (addr : Addr) (conn_id : Nat)
  | SpawnForwarder (addr : Addr) (conn_id : Nat)
  | EnqueueAccept (addr : Addr) (conn_id : Nat)
  | AcceptSendFailed (addr : Addr) (conn_id : Nat)
  | ForwardToRing (addr : Addr) (data : List Byte)
  | DropNoEntry (addr : Addr)
  | DropNotData (addr : Addr)
  | DropDecode (addr : Addr)
deriving DecidableEq, Repr

/-- The outcomes of the fallible environment interactions a single
receive-loop iteration can perform: whether the `send_to` of the SACK
succeeds, whether the `send` into a mapped ring sink succeeds, whether the
accept-channel `send` succeeds, and the identifier of the ring pair a
`handle_connect` call would create. -/
structure Env where
  sackSendOk : Bool
  ringSendOk : Bool
  acceptSendOk : Bool
  newRing : Nat
deriving DecidableEq, Repr

/-- The function `UdpTunnelListener::handle_connect` (lines 213-261): send a SACK envelope
back to the remote address; on success create a ring pair, insert its client
half into the socket map under the address (replacing any existing binding),
and spawn the forwarder task.  A failed SACK send is the function's `?`
error. -/
def handle_connect (env : Env) (m : SockMap) (addr : Addr) (cid : Nat) :
    Except TunnelError (List Event × SockMap) :=
  if env.sackSendOk then
    .ok ([.SendSack addr cid, .InsertMap addr cid, .SpawnForwarder addr cid],
      mapInsert m addr ⟨cid, env.newRing⟩)
  else
    .error (.CommonError "sack send failed")

/-- The function `UdpTunnelListener::try_forward_packet` (lines 190-211): look the source
address up in the socket map; with no entry, warn and return `Ok`.  With an
entry, re-extract the data payload against the entry's conn id; a datagram
that does not carry matching data is silently dropped (`Ok`).  Only a failed
`send` into the mapped ring sink returns `Err`. -/
def try_forward_packet (env : Env) (m : SockMap) (buf : List Byte)
    (addr : Addr) : Except TunnelError (List Event) :=
  match mapLookup m addr with
  | none => .ok [.DropNoEntry addr]
  | some e =>
    match try_get_data_payload buf e.conn_id with
    | none => .ok [.DropNotData addr]
    | some d =>
      if env.ringSendOk then .ok [.ForwardToRing addr d]
      else .error (.CommonError "ring sink send failed")

/-- How one iteration of the receive task ends. -/
inductive StepOutcome where
  | Continue (events : List Event)
  | Panic
deriving DecidableEq, Repr

/-- One iteration of the receive task spawned by `UdpTunnelListener::listen`
(lines 286-328): read a datagram into a fresh 2500-byte buffer truncated to
the received size, checked-decode the envelope (on failure, log and
continue); on a `Syn` payload run `handle_connect` — whose result the code
`unwrap`s, so a `handle_connect` error panics the task — then push the new
tunnel into the accept channel, logging (not aborting) if that fails; on any
other payload run `try_forward_packet` — whose result the code `unwrap`s, so
a forward error panics the task. -/
def listen_step (env : Env) (m : SockMap) (d : Datagram) :
    StepOutcome × SockMap :=
  match decode (d.content.take UDP_DATA_MTU) with
  | none => (.Continue [.DropDecode d.src], m)
  | some p =>
    match p.payload with
    | .Syn =>
      match handle_connect env m d.src p.conn_id with
      | .error _ => (.Panic, m)
      | .ok (evs, m') =>
        if env.acceptSendOk then
          (.Continue (evs ++ [.EnqueueAccept d.src p.conn_id]), m')
        else
          (.Continue (evs ++ [.AcceptSendFailed d.src p.conn_id]), m')
    | _ =>
      match try_forward_packet env m (d.content.take UDP_DATA_MTU) d.src with
      | .ok evs => (.Continue evs, m)
      | .error _ => (.Panic, m)

/-- The map effect of a forwarder task exiting (lines 246-248): it removes
the binding currently stored under its remote address
(`sock_map.remove(&addr_copy)`) — keyed by address only, with no conn-id
check. -/
def forwarder_exit (m : SockMap) (addr : Addr) : SockMap :=
  mapRemove m addr

/-- C1 counterexample: with a live map entry `⟨conn 1, ring 0⟩` for address 5,
a second SYN (conn id 2) from address 5 is NOT dropped: the receive loop runs
`handle_connect` again, so a SACK is re-sent, a new tunnel is spawned and
enqueued for accept, and the map binding for address 5 is replaced by the new
tunnel's entry — contradicting the claim that no SACK is re-sent, the
datagram is dropped, and the map keeps its existing entry. -/
theorem second_syn_counterexample :
    (listen_step ⟨true, true, true, 9⟩ [(5, ⟨1, 0⟩)] ⟨5, rawEncode ⟨2, .Syn⟩⟩
      = (.Continue [.SendSack 5 2, .InsertMap 5 2, .SpawnForwarder 5 2,
          .EnqueueAccept 5 2], [(5, ⟨2, 9⟩)]))
    ∧ mapLookup [(5, (⟨1, 0⟩ : Entry))] 5 = some ⟨1, 0⟩
    ∧ mapLookup [(5, (⟨2, 9⟩ : Entry))] 5 ≠ some ⟨1, 0⟩ := by
  refine ⟨by decide, by decide, by decide⟩

/-- C1 amended: a SYN from a remote address that already has a live socket-map
entry is handled exactly like a first SYN: the server re-sends a SACK, creates
a new tunnel, spawns a forwarder and enqueues the tunnel for accept, and the
socket-map binding for that address is replaced by the new tunnel's entry. -/
theorem second_syn_behavior (env : Env) (m : SockMap) (d : Datagram)
    (e : Entry) (cid : Nat)
    (hlive : mapLookup m d.src = some e)
    (hdec : decode (d.content.take UDP_DATA_MTU) = some ⟨cid, .Syn⟩)
    (hsack : env.sackSendOk = true) (hacc : env.acceptSendOk = true) :
    (listen_step env m d).1 = .Continue [.SendSack d.src cid,
      .InsertMap d.src cid, .SpawnForwarder d.src cid, .EnqueueAccept d.src cid]
    ∧ mapLookup (listen_step env m d).2 d.src = some ⟨cid, env.newRing⟩ := by
  unfold listen_step
  rw [hdec]
  unfold handle_connect
  rw [hsack]
  simp only [if_true, hacc]
  exact ⟨rfl, mapLookup_insert ..⟩

theorem second_syn_behavior_witness :
    (listen_step ⟨true, true, true, 9⟩ [(5, ⟨1, 0⟩)] ⟨5, rawEncode ⟨2, .Syn⟩⟩).1
      = .Continue [.SendSack 5 2, .InsertMap 5 2, .SpawnForwarder 5 2,
          .EnqueueAccept 5 2]
    ∧ mapLookup (listen_step ⟨true, true, true, 9⟩ [(5, ⟨1, 0⟩)]
        ⟨5, rawEncode ⟨2, .Syn⟩⟩).2 5 = some ⟨2, 9⟩ :=
  second_syn_behavior ⟨true, true, true, 9⟩ [(5, ⟨1, 0⟩)] ⟨5, rawEncode ⟨2, .Syn⟩⟩
    ⟨1, 0⟩ 2 (by decide) (by decide) rfl rfl

/-- With the ring sink healthy, forwarding never returns an error: an
unmapped source or a non-matching payload is dropped with `Ok`. -/
theorem try_forward_packet_ok (env : Env) (m : SockMap) (buf : List Byte)
    (addr : Addr) (hring : env.ringSendOk = true) :
    ∃ evs, try_forward_packet env m buf addr = .ok evs := by
  cases hres : try_forward_packet env m buf addr with
  | ok evs => exact ⟨evs, rfl⟩
  | error err =>
    exfalso
    unfold try_forward_packet at hres
    split at hres
    · simp at hres
    · split at hres
      · simp at hres
      · rw [hring] at hres
        simp at hres

/-- C3 counterexample: a datagram carrying a `Data` payload that matches the
mapped entry's conn id, arriving while the ring sink rejects the push, makes
the receive task panic (the code `unwrap`s `try_forward_packet`) instead of
logging and continuing. -/
theorem recv_task_forward_panic :
    (listen_step ⟨true, false, true, 0⟩ [(5, ⟨7, 0⟩)]
      ⟨5, rawEncode ⟨7, .Data [1, 2]⟩⟩).1 = .Panic := by decide

/-- C3 amended: the receive task logs and continues on datagrams that fail to
decode, on stray non-data datagrams and on accept-channel send failures, but
it panics (aborts) when `handle_connect` fails (SACK send error) or when the
forward into a mapped ring sink fails, because both results are `unwrap`ed;
when those two environment interactions succeed, every datagram leaves the
task in its loop. -/
theorem recv_task_no_panic_when_sends_ok (env : Env) (m : SockMap)
    (d : Datagram) (hsack : env.sackSendOk = true)
    (hring : env.ringSendOk = true) :
    ∃ evs, (listen_step env m d).1 = .Continue evs := by
  unfold listen_step
  cases hdec : decode (d.content.take UDP_DATA_MTU) with
  | none => exact ⟨_, rfl⟩
  | some p =>
    obtain ⟨cid, pl⟩ := p
    obtain ⟨evs, hf⟩ :=
      try_forward_packet_ok env m (d.content.take UDP_DATA_MTU) d.src hring
    cases pl with
    | Syn =>
      unfold handle_connect
      rw [hsack]
      simp only [if_true]
      cases hacc : env.acceptSendOk
      · exact ⟨_, rfl⟩
      · exact ⟨_, rfl⟩
    | Sack =>
      rw [hf]
      exact ⟨evs, rfl⟩
    | HolePunch d2 =>
      rw [hf]
      exact ⟨evs, rfl⟩
    | Data d2 =>
      rw [hf]
      exact ⟨evs, rfl⟩

theorem recv_task_no_panic_witness :
    ∃ evs, (listen_step ⟨true, true, true, 0⟩ [] ⟨5, [0, 0]⟩).1
      = .Continue evs :=
  recv_task_no_panic_when_sends_ok ⟨true, true, true, 0⟩ [] ⟨5, [0, 0]⟩ rfl rfl

/-- C8: for every SYN the server accepts, the SACK send is the first
externally visible action of the iteration: it precedes the map insertion,
the forwarder spawn and the enqueue of the tunnel on the accept channel. -/
theorem sack_sent_first (env : Env) (m : SockMap) (d : Datagram) (cid : Nat)
    (hdec : decode (d.content.take UDP_DATA_MTU) = some ⟨cid, .Syn⟩)
    (hsack : env.sackSendOk = true) (hacc : env.acceptSendOk = true) :
    ∃ rest, (listen_step env m d).1 = .Continue (.SendSack d.src cid :: rest)
      ∧ .InsertMap d.src cid ∈ rest
      ∧ .SpawnForwarder d.src cid ∈ rest
      ∧ .EnqueueAccept d.src cid ∈ rest := by
  refine ⟨[.InsertMap d.src cid, .SpawnForwarder d.src cid,
    .EnqueueAccept d.src cid], ?_, by simp, by simp, by simp⟩
  unfold listen_step
  rw [hdec]
  unfold handle_connect
  rw [hsack]
  simp only [if_true, hacc]
  rfl

theorem sack_sent_first_witness :
    ∃ rest, (listen_step ⟨true, true, true, 4⟩ [] ⟨6, rawEncode ⟨3, .Syn⟩⟩).1
      = .Continue (.SendSack 6 3 :: rest)
      ∧ .InsertMap 6 3 ∈ rest ∧ .SpawnForwarder 6 3 ∈ rest
      ∧ .EnqueueAccept 6 3 ∈ rest :=
  sack_sent_first ⟨true, true, true, 4⟩ [] ⟨6, rawEncode ⟨3, .Syn⟩⟩ 3
    (by decide) rfl rfl

/-- C10: server-side map removal is keyed by remote address only.  After
`handle_connect` has run a second time for the same address — replacing the
entry with the newer tunnel's — the exit of the older tunnel's forwarder
(`sock_map.remove(&addr_copy)`) removes the newer tunnel's binding. -/
theorem forwarder_exit_removes_by_addr (env1 env2 : Env) (m : SockMap)
    (addr : Addr) (cid1 cid2 : Nat) (evs1 evs2 : List Event) (m1 m2 : SockMap)
    (h1 : handle_connect env1 m addr cid1 = .ok (evs1, m1))
    (h2 : handle_connect env2 m1 addr cid2 = .ok (evs2, m2)) :
    mapLookup m2 addr = some ⟨cid2, env2.newRing⟩
    ∧ mapLookup (forwarder_exit m2 addr) addr = none := by
  unfold handle_connect at h2
  split at h2
  · injection h2 with h2
    injection h2 with hevs hm
    subst hm
    exact ⟨mapLookup_insert .., mapLookup_remove ..⟩
  · exact absurd h2 (by simp)

theorem forwarder_exit_removes_by_addr_witness :
    mapLookup [(5, (⟨2, 9⟩ : Entry))] 5 = some ⟨2, 9⟩
    ∧ mapLookup (forwarder_exit [(5, (⟨2, 9⟩ : Entry))] 5) 5 = none :=
  forwarder_exit_removes_by_addr ⟨true, true, true, 0⟩ ⟨true, true, true, 9⟩
    [] 5 1 2 [.SendSack 5 1, .InsertMap 5 1, .SpawnForwarder 5 1]
    [.SendSack 5 2, .InsertMap 5 2, .SpawnForwarder 5 2]
    [(5, ⟨1, 0⟩)] [(5, ⟨2, 9⟩)] rfl rfl

/-- The connector's receive buffer for handshake datagrams is 128 bytes
(`buf.resize(128, 0)` in `wait_sack`, line 408): a longer datagram is
truncated to its first 128 bytes before decoding. -/
def SACK_RECV_BUF : Nat := 128

/-- The function `UdpTunnelConnector::wait_sack` (lines 402-448) applied to one arriving
datagram: receive into the 128-byte buffer (truncating), error unless the
source is the target address, truncate to the received size, checked-decode,
error on decode failure, on a conn id mismatch, or on a non-`Sack` payload
variant; otherwise succeed. -/
def wait_sack (addr : Addr) (conn_id : Nat) (d : Datagram) :
    Except TunnelError Unit :=
  if d.src ≠ addr then .error (.ConnectError "unexpected sack addr")
  else
    match decode (d.content.take SACK_RECV_BUF) with
    | none => .error (.ConnectError "decode error")
    | some p =>
      if conn_id ≠ p.conn_id then .error (.ConnectError "conn id not match")
      else
        match p.payload with
        | .Sack => .ok ()
        | _ => .error (.ConnectError "unexpected payload")

/-- The function `UdpTunnelConnector::wait_sack_loop` (lines 450-459): keep calling
`wait_sack`, logging and discarding every erroneous datagram, until one call
succeeds.  Applied to the finite sequence of datagrams arriving before the
overall deadline: `true` means a call succeeded, `false` means the loop was
still waiting when the deadline fired. -/
def wait_sack_loop (addr conn_id : Nat) : List Datagram → Bool
  | [] => false
  | d :: rest =>
    match wait_sack addr conn_id d with
    | .ok _ => true
    | .error _ => wait_sack_loop addr conn_id rest

/-- The overall SACK wait in `try_connect_with_socket` (lines 476-480):
`wait_sack_loop` raced against the 3-second `tokio::time::timeout`; if the
loop has not succeeded on the datagrams arriving before the deadline, the
elapsed timer surfaces as an error. -/
def handshake_wait (addr conn_id : Nat) (ds : List Datagram) :
    Except TunnelError Unit :=
  if wait_sack_loop addr conn_id ds then .ok () else .error .Timeout

/-- A single `wait_sack` call succeeds exactly on a datagram from the target
address whose truncated content decodes to a `Sack` envelope with the
matching conn id. -/
theorem wait_sack_ok_iff (addr cid : Nat) (d : Datagram) :
    wait_sack addr cid d = .ok () ↔
      d.src = addr ∧
        decode (d.content.take SACK_RECV_BUF) = some ⟨cid, .Sack⟩ := by
  unfold wait_sack
  constructor
  · intro h
    split at h
    · simp at h
    case isFalse hsrc =>
      rw [not_not] at hsrc
      split at h
      · simp at h
      case h_2 p hp =>
        split at h
        · simp at h
        case isFalse hcid =>
          rw [not_not] at hcid
          obtain ⟨pc, pp⟩ := p
          simp only at hcid
          subst hcid
          cases pp with
          | Sack => exact ⟨hsrc, hp⟩
          | Syn => simp at h
          | HolePunch d2 => simp at h
          | Data d2 => simp at h
  · rintro ⟨hsrc, hdec⟩
    rw [hdec, if_neg (by simp [hsrc])]
    simp

theorem wait_sack_loop_iff (addr cid : Nat) (ds : List Datagram) :
    wait_sack_loop addr cid ds = true ↔
      ∃ d ∈ ds, wait_sack addr cid d = .ok () := by
  induction ds with
  | nil => simp [wait_sack_loop]
  | cons d rest ih =>
    unfold wait_sack_loop
    cases hws : wait_sack addr cid d with
    | ok u =>
      obtain ⟨⟩ := u
      constructor
      · intro _
        exact ⟨d, by simp, hws⟩
      · intro _
        rfl
    | error e =>
      constructor
      · intro h
        obtain ⟨d2, hd2, hws2⟩ := ih.mp h
        exact ⟨d2, by simp [hd2], hws2⟩
      · rintro ⟨d2, hd2, hws2⟩
        rcases List.mem_cons.mp hd2 with rfl | hd2
        · rw [hws] at hws2
          simp at hws2
        · exact ih.mpr ⟨d2, hd2, hws2⟩

/-- C4: during the connector's SACK wait, every datagram from the wrong
address, failing to decode, or carrying the wrong conn id or a non-`Sack`
variant is discarded and the wait continues unchanged; the wait succeeds
exactly when a matching SACK arrives among the datagrams before the
deadline, and otherwise it ends with the timeout error. -/
theorem sack_wait_spec (addr cid : Nat) (ds : List Datagram) :
    (handshake_wait addr cid ds = .ok () ↔
      ∃ d ∈ ds, d.src = addr ∧
        decode (d.content.take SACK_RECV_BUF) = some ⟨cid, .Sack⟩)
    ∧ (∀ d rest, wait_sack addr cid d ≠ .ok () →
      wait_sack_loop addr cid (d :: rest) = wait_sack_loop addr cid rest)
    ∧ (handshake_wait addr cid ds ≠ .ok () →
      handshake_wait addr cid ds = .error .Timeout) := by
  refine ⟨?_, ?_, ?_⟩
  · unfold handshake_wait
    split
    case isTrue h =>
      constructor
      · intro _
        obtain ⟨d, hd, hws⟩ := (wait_sack_loop_iff addr cid ds).mp h
        exact ⟨d, hd, (wait_sack_ok_iff addr cid d).mp hws⟩
      · intro _
        rfl
    case isFalse h =>
      constructor
      · intro hc
        simp at hc
      · rintro ⟨d, hd, hcond⟩
        exact absurd ((wait_sack_loop_iff addr cid ds).mpr
          ⟨d, hd, (wait_sack_ok_iff addr cid d).mpr hcond⟩) h
  · intro d rest hne
    cases hws : wait_sack addr cid d with
    | ok u =>
      obtain ⟨⟩ := u
      exact absurd hws hne
    | error e =>
      simp [wait_sack_loop, hws]
  · intro h
    unfold handshake_wait at h ⊢
    split at h
    · exact absurd rfl h
    case isFalse hcond =>
      rw [if_neg hcond]

theorem sack_wait_spec_witness :
    handshake_wait 3 7
      [⟨4, rawEncode ⟨7, .Sack⟩⟩, ⟨3, [0, 1, 2]⟩, ⟨3, rawEncode ⟨9, .Sack⟩⟩,
        ⟨3, rawEncode ⟨7, .Syn⟩⟩, ⟨3, rawEncode ⟨7, .Sack⟩⟩] = .ok () :=
  (sack_wait_spec 3 7 _).1.mpr
    ⟨⟨3, rawEncode ⟨7, .Sack⟩⟩, by decide, by decide, by decide⟩

theorem decodePayload_tag2 (l0 l1 l2 l3 : Byte) (data : List Byte) :
    decodePayload 2 (l0 :: l1 :: l2 :: l3 :: data)
      = if data.length = fromU32le l0 l1 l2 l3 then some (.HolePunch data)
        else none := by
  unfold decodePayload
  rw [if_neg (by decide), if_neg (by decide), if_pos (by decide)]

theorem decodePayload_tag3 (l0 l1 l2 l3 : Byte) (data : List Byte) :
    decodePayload 3 (l0 :: l1 :: l2 :: l3 :: data)
      = if data.length = fromU32le l0 l1 l2 l3 then some (.Data data)
        else none := by
  unfold decodePayload
  rw [if_neg (by decide), if_neg (by decide), if_neg (by decide),
    if_pos (by decide)]

/-- Truncating the encoding of an oversized `Data` envelope to the 128-byte
handshake buffer leaves a stated inner length that exceeds the bytes present,
so checked decoding fails. -/
theorem decode_take_of_long_data (cid2 : Nat) (dd : List Byte)
    (h119 : 119 < dd.length) (hdd : dd.length < 4294967296) :
    decode ((rawEncode ⟨cid2, .Data dd⟩).take SACK_RECV_BUF) = none := by
  have hpre : ((u32le cid2 ++ (3 : Byte) :: u32le dd.length) : List Byte).length
      = 9 := by
    simp [u32le]
  have hsplit : (rawEncode ⟨cid2, .Data dd⟩).take SACK_RECV_BUF
      = (u32le cid2 ++ (3 : Byte) :: u32le dd.length) ++ List.take 119 dd := by
    show (u32le cid2 ++ (3 : Byte) :: (u32le dd.length ++ dd)).take SACK_RECV_BUF
      = _
    rw [show u32le cid2 ++ (3 : Byte) :: (u32le dd.length ++ dd)
        = (u32le cid2 ++ (3 : Byte) :: u32le dd.length) ++ dd by simp]
    rw [List.take_append_eq_append_take, hpre,
      List.take_of_length_le (by rw [hpre]; decide)]
    norm_num [SACK_RECV_BUF]
  rw [hsplit]
  simp only [u32le, List.cons_append, List.nil_append]
  simp only [decode]
  rw [decodePayload_tag3, fromU32le_u32le dd.length hdd, List.length_take,
    if_neg (by omega)]
  rfl

/-- Truncating the encoding of an oversized `HolePunch` envelope to the
128-byte handshake buffer likewise fails checked decoding. -/
theorem decode_take_of_long_holepunch (cid2 : Nat) (dd : List Byte)
    (h119 : 119 < dd.length) (hdd : dd.length < 4294967296) :
    decode ((rawEncode ⟨cid2, .HolePunch dd⟩).take SACK_RECV_BUF) = none := by
  have hpre : ((u32le cid2 ++ (2 : Byte) :: u32le dd.length) : List Byte).length
      = 9 := by
    simp [u32le]
  have hsplit : (rawEncode ⟨cid2, .HolePunch dd⟩).take SACK_RECV_BUF
      = (u32le cid2 ++ (2 : Byte) :: u32le dd.length) ++ List.take 119 dd := by
    show (u32le cid2 ++ (2 : Byte) :: (u32le dd.length ++ dd)).take SACK_RECV_BUF
      = _
    rw [show u32le cid2 ++ (2 : Byte) :: (u32le dd.length ++ dd)
        = (u32le cid2 ++ (2 : Byte) :: u32le dd.length) ++ dd by simp]
    rw [List.take_append_eq_append_take, hpre,
      List.take_of_length_le (by rw [hpre]; decide)]
    norm_num [SACK_RECV_BUF]
  rw [hsplit]
  simp only [u32le, List.cons_append, List.nil_append]
  simp only [decode]
  rw [decodePayload_tag2, fromU32le_u32le dd.length hdd, List.length_take,
    if_neg (by omega)]
  rfl

/-- C9: the connector's handshake receive buffer is exactly 128 bytes, so a
datagram longer than 128 bytes is truncated: a single `wait_sack` step never
returns success for it (a SACK decode needs a 5-byte buffer, but the
truncated buffer holds 128 bytes), and whenever such a datagram is the
encoding of a well-formed envelope — which the wire format permits up to
2500 bytes — the truncated content fails checked decoding outright. -/
theorem sack_buffer_truncation (addr cid : Nat) (d : Datagram)
    (h : SACK_RECV_BUF < d.content.length) :
    wait_sack addr cid d ≠ .ok ()
    ∧ (∀ p : UdpPacket, encode_to_bytes p = some d.content →
        decode (d.content.take SACK_RECV_BUF) = none) := by
  constructor
  · intro hok
    obtain ⟨hsrc, hdec⟩ := (wait_sack_ok_iff addr cid d).mp hok
    have h5 := decode_sack_length hdec
    rw [List.length_take] at h5
    unfold SACK_RECV_BUF at h h5
    omega
  · intro p hp
    rw [encode_to_bytes_eq] at hp
    split at hp
    case isFalse => exact absurd hp (by simp)
    case isTrue hle =>
      injection hp with hp
      obtain ⟨cid2, pl⟩ := p
      cases pl with
      | Syn =>
        exfalso
        have h5 : (rawEncode (⟨cid2, .Syn⟩ : UdpPacket)).length = 5 :=
          rawEncode_length _
        rw [hp] at h5
        unfold SACK_RECV_BUF at h
        omega
      | Sack =>
        exfalso
        have h5 : (rawEncode (⟨cid2, .Sack⟩ : UdpPacket)).length = 5 :=
          rawEncode_length _
        rw [hp] at h5
        unfold SACK_RECV_BUF at h
        omega
      | Data dd =>
        have h9 : (rawEncode (⟨cid2, .Data dd⟩ : UdpPacket)).length
            = 9 + dd.length := rawEncode_length _
        have hgt : 119 < dd.length := by
          rw [hp] at h9
          unfold SACK_RECV_BUF at h
          omega
        have hlt : dd.length < 4294967296 := by
          rw [h9] at hle
          unfold UDP_DATA_MTU at hle
          omega
        rw [← hp]
        exact decode_take_of_long_data cid2 dd hgt hlt
      | HolePunch dd =>
        have h9 : (rawEncode (⟨cid2, .HolePunch dd⟩ : UdpPacket)).length
            = 9 + dd.length := rawEncode_length _
        have hgt : 119 < dd.length := by
          rw [hp] at h9
          unfold SACK_RECV_BUF at h
          omega
        have hlt : dd.length < 4294967296 := by
          rw [h9] at hle
          unfold UDP_DATA_MTU at hle
          omega
        rw [← hp]
        exact decode_take_of_long_holepunch cid2 dd hgt hlt

set_option maxRecDepth 4000 in
theorem sack_buffer_truncation_witness :
    wait_sack 1 0 ⟨1, rawEncode ⟨0, .Data (List.replicate 150 0)⟩⟩ ≠ .ok ()
    ∧ decode ((rawEncode (⟨0, .Data (List.replicate 150 0)⟩ :
        UdpPacket)).take SACK_RECV_BUF) = none := by
  have h := sack_buffer_truncation 1 0
    ⟨1, rawEncode ⟨0, .Data (List.replicate 150 0)⟩⟩ (by decide)
  exact ⟨h.1, h.2 ⟨0, .Data (List.replicate 150 0)⟩ (by rfl)⟩

/-- The function `UdpTunnelConnector::connect_with_custom_bind` (lines 499-523), with the
environment supplying the outcome of each sequential socket bind and the
handshake attempts' results in completion order.  The loop propagates the
first bind error with `?`; otherwise the pushed handshake futures race in a
`FuturesUnordered` and `futures.next().await` yields the first COMPLETED
result — success or failure — which is returned as is.  The aggregate
"join connect futures failed" error arises only when no future was pushed. -/
def connect_with_custom_bind (binds : List (Except TunnelError Unit))
    (completions : List (Except TunnelError Nat)) : Except TunnelError Nat :=
  match binds.findSome? (fun b =>
      match b with
      | .error e => some e
      | .ok _ => none) with
  | some e => .error e
  | none =>
    match completions.head? with
    | none => .error (.CommonError "join connect futures failed")
    | some r => r

/-- The function `UdpTunnelConnector::connect` (lines 528-534): an empty bind-address list
uses the default bind path, a non-empty one the custom fan-out. -/
def connect (bind_addrs : List Addr)
    (defaultResult : Except TunnelError Nat)
    (binds : List (Except TunnelError Unit))
    (completions : List (Except TunnelError Nat)) : Except TunnelError Nat :=
  if bind_addrs.isEmpty then defaultResult
  else connect_with_custom_bind binds completions

/-- C2 counterexample: with two bind addresses, both binds fine, the first
handshake attempt to complete fails while the other attempt succeeds (its
`.ok 42` result is among the completions), yet `connect` surfaces the
failure — so an error is surfaced even though an attempt succeeds, and
nothing aggregates the failures. -/
theorem first_completion_counterexample :
    connect [1, 2] (.error .Timeout) [.ok (), .ok ()]
        [.error (.ConnectError "handshake refused"), .ok 42]
      = .error (.ConnectError "handshake refused")
    ∧ (.ok 42) ∈
        ([.error (.ConnectError "handshake refused"), .ok 42] :
          List (Except TunnelError Nat)) :=
  ⟨rfl, by simp⟩

/-- C2 amended: with a non-empty list of bind addresses whose binds all
succeed, the handshake is issued on all sockets and `connect` returns the
result of whichever attempt completes first — success or failure alike; the
aggregate "join connect futures failed" error occurs only when there are no
completions, and a bind failure is surfaced immediately instead. -/
theorem first_completion_semantics (bind_addrs : List Addr)
    (defaultResult : Except TunnelError Nat)
    (binds : List (Except TunnelError Unit))
    (completions : List (Except TunnelError Nat))
    (hne : bind_addrs ≠ []) (hbinds : ∀ b ∈ binds, b = .ok ()) :
    connect bind_addrs defaultResult binds completions
      = match completions.head? with
        | none => .error (.CommonError "join connect futures failed")
        | some r => r := by
  unfold connect
  rw [if_neg (by simp [List.isEmpty_iff, hne])]
  unfold connect_with_custom_bind
  have hnone : binds.findSome? (fun b =>
      match b with
      | .error e => some e
      | .ok _ => none) = none := by
    rw [List.findSome?_eq_none_iff]
    intro b hb
    rw [hbinds b hb]
  rw [hnone]

theorem first_completion_semantics_witness :
    connect [1] (.error .Timeout) [.ok ()] [.ok 7] = .ok 7 :=
  first_completion_semantics [1] (.error .Timeout) [.ok ()] [.ok 7]
    (by simp) (by simp)

end UdpTunnel
